import Mathlib

/-!
# Verification of the bapsflib HDF5 mapping layer

A shallow embedding, in Lean 4, of the mapping-construction logic of the
`bapsflib` package: the N5700 power-supply control mapper
(`bapsflib/_hdf_mappers/map_controls/n5700ps.py`), the LaPD file mapper
(`bapsflib/lapd/_hdf/hdfmapper.py`) and the legacy mapper
(`bapsflib/lapdhdf/hdfmappers.py`).  HDF5 groups, datasets and attributes
are modelled as explicit Lean data; the Python code's dictionary
construction, byte-string decoding and regular-expression matching are
translated into executable Lean functions, and the behaviour claimed in
the natural-language specification is proved or refuted about them.
-/

namespace Bapsflib

/-! ## Character classes of the Python `re` / `str` semantics

The N5700 command-list pattern uses `\b`, `\s`, `\d` and literal
characters; Python's `str.strip`, `str.splitlines` and `str.casefold`
use the whitespace / line-break / case tables.  The whitespace and
line-break tables are modelled in full (Python compiles `str` patterns
in Unicode mode, so `\s` also accepts the separator controls
`\x1c`-`\x1f` and the Unicode spaces); the case table is modelled on
its ASCII fragment, which covers the attribute keys the code
casefolds. -/

/-- Class `\d` of the `re` module: a decimal digit. -/
def isDigitC (c : Char) : Bool := '0' ≤ c && c ≤ '9'

/-- A word character (`\w`), which `\b` tests on both sides of a
position: letter, digit or underscore. -/
def isWordC (c : Char) : Bool :=
  isDigitC c || ('a' ≤ c && c ≤ 'z') || ('A' ≤ c && c ≤ 'Z') || c == '_'

/-- Class `\s` of the `re` module in its default Unicode mode for
`str` patterns: a whitespace character — the set `str.isspace()`
accepts, which besides `[ \t\n\r\f\v]` holds the separator controls
`\x1c`-`\x1f`, `\x85`, `\xa0` and the Unicode space characters. -/
def isSpaceC (c : Char) : Bool :=
  c == ' ' || c == '\t' || c == '\n' || c == '\r' || c == '\x0b' ||
  c == '\x0c' || c == '\x1c' || c == '\x1d' || c == '\x1e' || c == '\x1f' ||
  c == '\x85' || c == '\xa0' || c == '\u1680' ||
  ('\u2000' ≤ c && c ≤ '\u200a') || c == '\u2028' || c == '\u2029' ||
  c == '\u202f' || c == '\u205f' || c == '\u3000'

/-- The whitespace set of `str.strip()`: the same whitespace table as
`\s`. -/
def pyIsSpace (c : Char) : Bool := isSpaceC c

/-- The line-break set of `str.splitlines()` (`\r\n` is handled as a
single break by `pySplitlines` itself). -/
def isLineBreakC (c : Char) : Bool :=
  c == '\n' || c == '\r' || c == '\x0b' || c == '\x0c' || c == '\x1c' ||
  c == '\x1d' || c == '\x1e' || c == '\x85' || c == '\u2028' || c == '\u2029'

/-- Python `str.splitlines()`: split at line breaks, treating `"\r\n"` as one
break; a trailing break produces no empty final line. -/
def pySplitlinesAux (acc : List Char) : List Char → List (List Char)
  | [] => if acc.isEmpty then [] else [acc.reverse]
  | '\r' :: '\n' :: rest => acc.reverse :: pySplitlinesAux [] rest
  | c :: rest =>
    if isLineBreakC c then acc.reverse :: pySplitlinesAux [] rest
    else pySplitlinesAux (c :: acc) rest

/-- Python `str.splitlines()` on a character list. -/
def pySplitlines (s : List Char) : List (List Char) := pySplitlinesAux [] s

/-- Python `str.strip()`: remove leading and trailing whitespace. -/
def pyStrip (s : List Char) : List Char :=
  ((s.dropWhile pyIsSpace).reverse.dropWhile pyIsSpace).reverse

/-- Python `str.casefold()` on one character (ASCII fragment): lower-case it. -/
def pyCasefoldChar (c : Char) : Char :=
  if 'A' ≤ c && c ≤ 'Z' then Char.ofNat (c.toNat + 32) else c

/-- Python `str.casefold()` on a character list. -/
def pyCasefold (s : List Char) : List Char := s.map pyCasefoldChar

/-- Python's `needle in hay` on strings: `needle` occurs as a contiguous
substring of `hay`. -/
def containsSub (needle : List Char) : List Char → Bool
  | [] => needle.isEmpty
  | c :: rest => needle.isPrefixOf (c :: rest) || containsSub needle rest

/-! ## The N5700 command-list regular expression

`hdfMap_control_n5700ps.__init__` registers the single pattern

`(?P<VOLT>(\bSOURCE:VOLTAGE:LEVEL\s)(?P<VAL>(\d+\.\d*|\.\d+|\d+\b)))`

The functions below are the executable semantics of a `re.search` with
exactly this pattern: a word boundary, the literal
`SOURCE:VOLTAGE:LEVEL`, one whitespace character, then the first of the
three numeric alternatives that matches, scanning start positions left
to right.  The quantified sub-expressions `\d+` and `\d*` are greedy; as
they range over the single-character class `\d`, greedy matching is the
`takeWhile`/`dropWhile` split and backtracking can never recover from a
failure after it, so the translation is exact. -/

/-- The raw pattern string registered in `self._cl_re_patterns`. -/
def n5700VoltPattern : String :=
  "(?P<VOLT>(\\bSOURCE:VOLTAGE:LEVEL\\s)(?P<VAL>(\\d+\\.\\d*|\\.\\d+|\\d+\\b)))"

/-- The known command-list RE patterns of the N5700 mapper (the
control-template starts with an empty list and `__init__` extends it by
the voltage pattern). -/
def n5700ClRePatterns : List String := [n5700VoltPattern]

/-- The literal `SOURCE:VOLTAGE:LEVEL` of the pattern. -/
def svlChars : List Char := "SOURCE:VOLTAGE:LEVEL".data

/-- Assertion `\b`: a word boundary between an optional left character and an
optional right character (string edges count as non-word). -/
def wordBoundaryB (l r : Option Char) : Bool :=
  (match l with | some c => isWordC c | none => false) !=
  (match r with | some c => isWordC c | none => false)

/-- Strip an expected literal prefix, returning the rest on success. -/
def stripPrefixL : List Char → List Char → Option (List Char)
  | [], s => some s
  | _ :: _, [] => none
  | p :: ps, c :: cs => if p == c then stripPrefixL ps cs else none

/-- Third alternative `\d+\b`: the greedy digit run `ds` (already split
off the input) followed by a word boundary. -/
def matchNumAlt3 (ds rest : List Char) : Option (List Char × List Char) :=
  if ds.isEmpty then none
  else
    match rest.head? with
    | none => some (ds, rest)
    | some c => if isWordC c then none else some (ds, rest)

/-- Second alternative `\.\d+` (falling through to `\d+\b`): a dot then
a non-empty greedy digit run. -/
def matchNumAlt2 (suf ds rest : List Char) : Option (List Char × List Char) :=
  match suf with
  | '.' :: r2 =>
    let ds2 := r2.takeWhile isDigitC
    if ds2.isEmpty then matchNumAlt3 ds rest
    else some ('.' :: ds2, r2.dropWhile isDigitC)
  | _ => matchNumAlt3 ds rest

/-- The alternation `(\d+\.\d*|\.\d+|\d+\b)` at the start of `suf`,
returning the text of `VAL` and the remaining input. -/
def matchNumAt (suf : List Char) : Option (List Char × List Char) :=
  let ds := suf.takeWhile isDigitC
  let rest := suf.dropWhile isDigitC
  if ds.isEmpty then matchNumAlt2 suf ds rest
  else
    match rest with
    | '.' :: r2 => some (ds ++ '.' :: r2.takeWhile isDigitC, r2.dropWhile isDigitC)
    | _ => matchNumAlt2 suf ds rest

/-- The whole pattern anchored at one start position: `\b`, the literal,
one `\s` character, then the numeric alternation; returns the text of
the group `VAL`.  `prev` is the character just before the position. -/
def matchVoltAt (prev : Option Char) (s : List Char) : Option (List Char) :=
  if wordBoundaryB prev s.head? then
    match stripPrefixL svlChars s with
    | some (c :: r2) => if isSpaceC c then (matchNumAt r2).map Prod.fst else none
    | some [] => none
    | none => none
  else none

/-- The search `re.search` with the voltage pattern: try every start position from
the left, returning the `VAL` group of the leftmost match; when the
current position does not match, advance by one character. -/
def clSearchVal (prev : Option Char) : List Char → Option (List Char)
  | [] =>
    (match matchVoltAt prev [] with
     | some v => some v
     | none => none)
  | c :: rest =>
    (match matchVoltAt prev (c :: rest) with
     | some v => some v
     | none => clSearchVal (some c) rest)

/-! ### Statement vocabulary for the pattern claims -/

/-- Every character is a decimal digit. -/
def allDigits (l : List Char) : Bool := l.all isDigitC

/-- A decimal numeric literal of one of the three shapes of the
pattern's alternation: digits `.` optional-digits, `.` digits, or bare
digits. -/
def numLitShape (num : List Char) : Prop :=
  (∃ ds ds2, num = ds ++ '.' :: ds2 ∧ ds ≠ [] ∧ allDigits ds = true ∧ allDigits ds2 = true) ∨
  (∃ ds2, num = '.' :: ds2 ∧ ds2 ≠ [] ∧ allDigits ds2 = true) ∨
  (num ≠ [] ∧ allDigits num = true)

/-- The string contains a fragment `SOURCE:VOLTAGE:LEVEL` followed by a
single space character and a numeric literal (the fragment shape the
claim describes, with a literal space). -/
def hasSvlSpaceFragment (s : List Char) : Prop :=
  ∃ pre num post, numLitShape num ∧ s = pre ++ svlChars ++ ' ' :: (num ++ post)

/-- The string contains a fragment `SOURCE:VOLTAGE:LEVEL` followed by a
single whitespace character and a numeric literal. -/
def hasSvlWsFragment (s : List Char) : Prop :=
  ∃ pre c num post, isSpaceC c = true ∧ numLitShape num ∧
    s = pre ++ svlChars ++ c :: (num ++ post)

/-! ## HDF5 data model

A `numpy.bytes_` attribute value carries the text it decodes to; the
LaPD convention stores all the attributes the mappers read as UTF-8
byte strings, so the value is modelled by its decoding.  HDF5 member
names are unique within a group; members of a control group are either
subgroups or datasets, and a dataset carries its absolute HDF5 path
(h5py's `.name`) and its compound dtype (field name to field shape). -/

/-- A `numpy.bytes_` value; `decodeUtf8` is `val.decode('utf-8')`. -/
structure NpBytes where
  decodeUtf8 : String
deriving DecidableEq

/-- The numpy dtypes the N5700 mapper manipulates. -/
inductive NpDType where
  | int32
  | float64
  | unicode (len : Nat)
deriving DecidableEq

/-- The dtype `np.array(cl).dtype` for a tuple `cl` of `str`: `float64` for the
empty tuple, else a unicode dtype whose length is the longest string
(at least 1). -/
def npStrTupleDtype (cl : List String) : NpDType :=
  if cl.isEmpty then .float64
  else .unicode (cl.foldl (fun m s => max m s.length) 1)

/-- An HDF5 dataset as the N5700 mapper reads it: its absolute path
(`dset.name`) and its compound dtype, a list of field name / field
shape pairs (`dset.dtype[field].shape`). -/
structure NDset where
  name : String
  dtypeFields : List (String × List Nat)
deriving DecidableEq

/-- An N5700 configuration subgroup: only its attributes are read. -/
structure NSubGroup where
  attrs : List (String × NpBytes)
deriving DecidableEq

/-- A member of an HDF5 group: a subgroup or a dataset. -/
inductive NMember where
  | grp (g : NSubGroup)
  | dset (d : NDset)
deriving DecidableEq

/-- The N5700 control device group: its name (`self.name`) and its
members, keyed by member name. -/
structure NControlGroup where
  name : String
  members : List (String × NMember)
deriving DecidableEq

/-- Modelled from the spec: the control-template's `sgroup_names`
(defined in `control_template.py`, outside this tree) enumerates the
names of the subgroups of the control group, which `_build_configs`
treats as the configuration groups.  Here each name is paired with its
subgroup. -/
def sgroups (g : NControlGroup) : List (String × NSubGroup) :=
  g.members.filterMap (fun p =>
    match p.2 with
    | .grp sg => some (p.1, sg)
    | .dset _ => none)

/-- The `construct_dataset_name()` of the N5700 mapper. -/
def constructDatasetName : String := "Run time list"

/-! ## The N5700 `_build_configs` -/

/-- One entry of a state-values dictionary (the keys the source code
stores in it: `'dset paths'`, `'dset field'`, `'re pattern'`,
`'command list'`, `'cl str'`, `'shape'`, `'dtype'`). -/
structure SVEntry where
  dsetPaths : String
  dsetField : List String
  rePattern : Option String
  commandList : List String
  clStr : List String
  shape : List Nat
  dtype : NpDType
deriving DecidableEq

/-- The `_default_state_values_dict(config_name)` value: the single `'command'`
entry built from the configuration's `'dset paths'` and
`'command list'` values. -/
def defaultStateValuesDict (dsetPaths : String) (cl : List String) :
    List (String × SVEntry) :=
  [("command",
    { dsetPaths := dsetPaths
      dsetField := ["Command index"]
      rePattern := none
      commandList := cl
      clStr := cl
      shape := []
      dtype := npStrTupleDtype cl })]

/-- Modelled from the spec: `_construct_state_values_dict` (defined in
`control_template.py`, outside this tree) builds a state-values
dictionary by matching the configuration's command list against the
registered RE patterns; it may raise `KeyError` (modelled by
`Except.error ()`), which `_build_configs` catches.  It is kept
abstract: theorems quantify over it. -/
abbrev CSVD := List String → List String → Except Unit (List (String × SVEntry))

/-- The normalized configuration `_build_configs` stores under one
configuration name: the four general-info values (optional, `none`
models Python `None` for a missing attribute), `'dset paths'`, the
`'shotnum'` sub-dictionary, and `'state values'`. -/
structure NConfig where
  ipAddress : Option String
  powerSupplyDevice : Option String
  initialState : Option String
  commandList : List String
  dsetPaths : String
  shotnumDsetPaths : String
  shotnumDsetField : List String
  shotnumShape : List Nat
  shotnumDtype : NpDType
  stateValues : List (String × SVEntry)
deriving DecidableEq

/-- How one iteration of the `_build_configs` loop ends when it does
not produce a configuration. -/
inductive BuildErr where
  | dsetNotFound
  | clNotFound
  | uncaught
deriving DecidableEq

/-- One iteration of the `_build_configs` loop over a configuration
subgroup `cong`: find the `'Run time list'` dataset (`KeyError` is
caught: `dsetNotFound`), read and decode the four attributes (a missing
command-list attribute is `clNotFound`; the other three default to
`None`), then the `'dset paths'`, `'shotnum'` and `'state values'`
values.  `uncaught` models the exceptions the source does not catch:
`dset.dtype` on a group member (`AttributeError`) and
`dset.dtype['Shot number']` on a dtype without that field
(`KeyError`). -/
def buildOne (g : NControlGroup) (csvd : CSVD) (cong : NSubGroup) :
    Except BuildErr NConfig :=
  match List.lookup constructDatasetName g.members with
  | none => .error .dsetNotFound
  | some m =>
    let ip := (List.lookup "IP address" cong.attrs).map NpBytes.decodeUtf8
    let psd := (List.lookup "Model Number" cong.attrs).map NpBytes.decodeUtf8
    let ini := (List.lookup "Initialization commands" cong.attrs).map NpBytes.decodeUtf8
    match List.lookup "N5700 power supply command list" cong.attrs with
    | none => .error .clNotFound
    | some clBytes =>
      let cl := (pySplitlines clBytes.decodeUtf8.data).map
        (fun l => String.mk (pyStrip l))
      match m with
      | .grp _ => .error .uncaught
      | .dset d =>
        match List.lookup "Shot number" d.dtypeFields with
        | none => .error .uncaught
        | some shp =>
          let sv := match csvd cl n5700ClRePatterns with
            | .ok svd => svd
            | .error _ => []
          .ok { ipAddress := ip
                powerSupplyDevice := psd
                initialState := ini
                commandList := cl
                dsetPaths := d.name
                shotnumDsetPaths := d.name
                shotnumDsetField := ["Shot number"]
                shotnumShape := shp
                shotnumDtype := .int32
                stateValues :=
                  if sv.isEmpty then defaultStateValuesDict d.name cl else sv }

/-- The outcome of `_build_configs`: normal completion with
`_build_successful = True` and the configs dictionary, an early return
with `_build_successful = False`, or an uncaught exception. -/
inductive BuildResult where
  | ok (configs : List (String × NConfig))
  | failed
  | raised
deriving DecidableEq

/-- The `_build_configs` loop over the configuration subgroups (the
partially filled entry of a failing iteration is not recorded: no claim
inspects the configs dictionary of a failed build). -/
def buildConfigsGo (g : NControlGroup) (csvd : CSVD)
    (acc : List (String × NConfig)) :
    List (String × NSubGroup) → BuildResult
  | [] => .ok acc
  | (nm, cong) :: rest =>
    match buildOne g csvd cong with
    | .ok c => buildConfigsGo g csvd (acc ++ [(nm, c)]) rest
    | .error .dsetNotFound => .failed
    | .error .clNotFound => .failed
    | .error .uncaught => .raised

/-- The method `hdfMap_control_n5700ps._build_configs`: fail at once when there is
no configuration subgroup, else run the loop. -/
def buildConfigs (g : NControlGroup) (csvd : CSVD) : BuildResult :=
  if (sgroups g).isEmpty then .failed
  else buildConfigsGo g csvd [] (sgroups g)

/-- Whenever the `'Run time list'` member exists, it is a dataset whose
compound dtype has a `'Shot number'` field (the shape of every real
N5700 run-time list; outside it the source raises an uncaught
exception). -/
def rtlWellFormed (g : NControlGroup) : Bool :=
  match List.lookup constructDatasetName g.members with
  | none => true
  | some (.grp _) => false
  | some (.dset d) => (List.lookup "Shot number" d.dtypeFields).isSome

/-! ## The modern `hdfMap` of `bapsflib.lapd._hdf.hdfmapper`

The file object is modelled by its filename, its root attributes and
its top-level groups; a group by its attributes and the names of its
members.  The construction threads a state `HFile × List String`: the
HDF5 file (which only read operations touch) and the warnings emitted
so far. -/

/-- A top-level HDF5 group as `hdfMap` reads it. -/
structure HGroup where
  attrs : List (String × NpBytes)
  items : List String
deriving DecidableEq

/-- An HDF5 file object as `hdfMap` reads it. -/
structure HFile where
  filename : String
  attrs : List (String × NpBytes)
  groups : List (String × HGroup)
deriving DecidableEq

/-- The constant `hdfMap._MSI_GNAME`. -/
def MSI_GNAME : String := "MSI"

/-- The constant `hdfMap._DATA_GNAME`. -/
def DATA_GNAME : String := "Raw data + config"

/-- The `is_lapd_hdf` property: the exact attribute key
`'LaPD HDF5 software version'` is present on the file. -/
def isLapdHdf (f : HFile) : Bool :=
  (List.lookup "LaPD HDF5 software version" f.attrs).isSome

/-- The `hdf_version` property: decode the
`'LaPD HDF5 software version'` attribute (`none` models the `KeyError`
raised when the attribute is absent). -/
def hdfVersion (f : HFile) : Option String :=
  (List.lookup "LaPD HDF5 software version" f.attrs).map NpBytes.decodeUtf8

/-- The construction state: the file and the warnings emitted so far. -/
abbrev FileSt := HFile × List String

/-- The `has_msi_group` property: detect the MSI group, warning when it
is absent.  `suppress` models the `"ignore"` warning filter the
constructor installs around the attach calls when `silent` is set. -/
def runHasMsiGroup (suppress : Bool) (st : FileSt) : Bool × FileSt :=
  if (List.lookup MSI_GNAME st.1.groups).isSome then (true, st)
  else
    (false, (st.1,
      if suppress then st.2
      else st.2 ++ ["No " ++ MSI_GNAME ++ " group found in " ++ st.1.filename]))

/-- The `has_data_group` property: detect the data group, warning when
it is absent. -/
def runHasDataGroup (suppress : Bool) (st : FileSt) : Bool × FileSt :=
  if (List.lookup DATA_GNAME st.1.groups).isSome then (true, st)
  else
    (false, (st.1,
      if suppress then st.2
      else st.2 ++ ["No " ++ DATA_GNAME ++ " group found in " ++ st.1.filename]))

/-- Lookup `f[k]` for a key the caller has already detected (the source only
indexes a group after the corresponding `has_*_group` check). -/
def getGroupD (f : HFile) (k : String) : HGroup :=
  (List.lookup k f.groups).getD ⟨[], []⟩

/-- The constructor's attribute normalization: take a group's
attributes and decode every byte-string value. -/
def decodeAttrs (l : List (String × NpBytes)) : List (String × String) :=
  l.map (fun p => (p.1, p.2.decodeUtf8))

/-- What `hdfMap.__init__` builds: the `attrs` dictionaries and the
`msi`, `digitizers`, `controls` and `unknowns` collections.  The three
mapping-collection types are abstract. -/
structure InitResult (α β γ : Type) where
  attrsMsi : List (String × String)
  attrsData : List (String × String)
  msi : List (String × α)
  digitizers : List (String × β)
  controls : List (String × γ)
  unknowns : List String

/-- The constructor `hdfMap.__init__`, parametrized by the three per-category mapping
collections `HDFMapMSI`, `hdfMap_digitizers` and `HDFMapControls`
(modelled from the spec: they are defined outside this tree and are,
per the spec, read-only transformations of their group to a dictionary
of mappings keyed by device name).  The steps in source order: the
`is_lapd_hdf` check (`ValueError` modelled by `Except.error`), the
attribute normalization, the three attach calls, and the unknowns
scan. -/
def hdfMapInit {α β γ : Type} (mapMSI : HGroup → List (String × α))
    (mapDigis : HGroup → List (String × β))
    (mapCtls : HGroup → List (String × γ)) (silent : Bool) (st : FileSt) :
    Except String (InitResult α β γ) × FileSt :=
  let f := st.1
  if isLapdHdf f = false then
    (.error ("HDF5 file (" ++ f.filename ++ ") was not generated by the LaPD"), st)
  else
    let r1 := runHasMsiGroup false st
    let attrsMsi := if r1.1 then decodeAttrs (getGroupD f MSI_GNAME).attrs else []
    let r2 := runHasDataGroup false r1.2
    let attrsData := if r2.1 then decodeAttrs (getGroupD f DATA_GNAME).attrs else []
    let r3 := runHasMsiGroup silent r2.2
    let msi := if r3.1 then mapMSI (getGroupD f MSI_GNAME) else []
    let r4 := runHasDataGroup silent r3.2
    let digis := if r4.1 then mapDigis (getGroupD f DATA_GNAME) else []
    let r5 := runHasDataGroup silent r4.2
    let ctls := if r5.1 then mapCtls (getGroupD f DATA_GNAME) else []
    let unknownsRoot := ((f.groups.map Prod.fst).filter
      (fun k => !(k == MSI_GNAME || k == DATA_GNAME))).map (fun k => "/" ++ k)
    let r6 := runHasMsiGroup silent r5.2
    let unknownsMsi :=
      if r6.1 then
        ((getGroupD f MSI_GNAME).items.filter
          (fun k => (List.lookup k msi).isNone)).map
          (fun k => "/" ++ MSI_GNAME ++ "/" ++ k)
      else []
    let r7 := runHasDataGroup silent r6.2
    let dknowns := digis.map Prod.fst ++ ctls.map Prod.fst
    let unknownsData :=
      if r7.1 then
        ((getGroupD f DATA_GNAME).items.filter
          (fun k => !(dknowns.contains k))).map
          (fun k => "/" ++ DATA_GNAME ++ "/" ++ k)
      else []
    (.ok { attrsMsi := attrsMsi
           attrsData := attrsData
           msi := msi
           digitizers := digis
           controls := ctls
           unknowns := unknownsRoot ++ unknownsMsi ++ unknownsData }, r7.2)

/-- The `main_digitizer` candidate hierarchy. -/
def possibleCandidates : List String := ["SIS 3301", "SIS crate"]

/-- The `main_digitizer` loop: the first candidate found among the
digitizer keys, `None` when none is. -/
def mainDigitizerGo {β : Type} (digis : List (String × β)) :
    List String → Option β
  | [] => none
  | k :: rest =>
    match List.lookup k digis with
    | some d => some d
    | none => mainDigitizerGo digis rest

/-- The `main_digitizer` property over the digitizers dictionary. -/
def mainDigitizer {β : Type} (digis : List (String × β)) : Option β :=
  mainDigitizerGo digis possibleCandidates

/-! ## The legacy `bapsflib.lapdhdf.hdfmappers` -/

namespace Lapdhdf

/-- The legacy `hdfMap.is_lapd_hdf`: scan the file's attribute keys for
one containing the substring `'lapd'` case-insensitively. -/
def isLapdHdf (attrKeys : List String) : Bool :=
  attrKeys.any (fun k => containsSub "lapd".data (pyCasefold k.data))

/-- The legacy `hdfMap_msi.__possible_diagnostic_groups`. -/
def possibleDiagnosticGroups : List String :=
  ["Discharge", "Gas pressure", "Heater", "Interferometer array",
   "Magnetic field"]

/-- The legacy `hdfMap_msi.__new__` loop: append every key of the MSI
group to `found_diagnostics`. -/
def foundDiagnostics (msiKeys : List String) : List String :=
  msiKeys.foldl (fun acc k => acc ++ [k]) []

end Lapdhdf

/-! ## Concrete sample objects

Small concrete HDF5 objects, used to instantiate the conditional
theorems and to exhibit counterexamples. -/

/-- A run-time-list dataset with the usual compound dtype. -/
def sampleRtlDset : NDset :=
  ⟨"/N5700_PS/Run time list", [("Shot number", []), ("Command index", [])]⟩

/-- A configuration subgroup with all four attributes present. -/
def sampleConfigGroup : NSubGroup :=
  ⟨[("IP address", ⟨"192.168.1.3"⟩),
    ("Model Number", ⟨"N5751A"⟩),
    ("Initialization commands", ⟨"*RST"⟩),
    ("N5700 power supply command list",
     ⟨"SOURCE:VOLTAGE:LEVEL 20.0 \nSOURCE:VOLTAGE:LEVEL 30.0\n"⟩)]⟩

/-- An N5700 control group on which the build succeeds. -/
def sampleControlGroup : NControlGroup :=
  ⟨"N5700_PS",
   [("Run time list", .dset sampleRtlDset),
    ("config01", .grp sampleConfigGroup)]⟩

/-- An N5700 control group whose run-time list lacks the
`'Shot number'` dtype field. -/
def badDtypeControlGroup : NControlGroup :=
  ⟨"N5700_PS",
   [("Run time list", .dset ⟨"/N5700_PS/Run time list", [("Xyz", [])]⟩),
    ("config01", .grp sampleConfigGroup)]⟩

/-- A state-values constructor that always returns the empty dict. -/
def sampleCSVD : CSVD := fun _ _ => .ok []

/-- A LaPD-generated file with an MSI group and no data group. -/
def sampleFile : HFile :=
  ⟨"test.hdf5", [("LaPD HDF5 software version", ⟨"1.2"⟩)],
   [("MSI", ⟨[("MSI timestamp", ⟨"t0"⟩)], ["Discharge"]⟩)]⟩

/-- A file whose only attribute key contains `'lapd'` but is not the
exact modern key. -/
def oldStyleFile : HFile :=
  ⟨"old.hdf5", [("lapd version", ⟨"1.0"⟩)], []⟩

/-! ## Helper lemmas -/

/-- A successful association-list lookup puts the key among the keys. -/
theorem mem_keys_of_lookup_eq_some {α : Type} {l : List (String × α)}
    {k : String} {v : α} (h : List.lookup k l = some v) :
    k ∈ l.map Prod.fst := by
  induction l with
  | nil => simp [List.lookup] at h
  | cons a rest ih =>
    rw [List.lookup_cons] at h
    by_cases hk : (k == a.1) = true
    · simp only [List.map_cons]
      exact List.mem_cons.mpr (Or.inl (eq_of_beq hk))
    · simp only [Bool.not_eq_true] at hk
      rw [hk] at h
      exact List.mem_cons_of_mem _ (ih h)

/-- Appending through a `foldl` that conses to the right. -/
theorem foldl_append_singleton (l : List String) :
    ∀ acc : List String, l.foldl (fun acc k => acc ++ [k]) acc = acc ++ l := by
  induction l with
  | nil => intro acc; simp
  | cons c rest ih => intro acc; simp [List.foldl_cons, ih]

/-- A member of the right list of a `Forall₂` has a related member on
the left. -/
theorem forall₂_mem_right {α β : Type} {R : α → β → Prop} :
    ∀ {l : List α} {tl : List β}, List.Forall₂ R l tl → ∀ q ∈ tl, ∃ p ∈ l, R p q := by
  intro l tl h
  induction h with
  | nil => intro q hq; simp at hq
  | cons hr _ ih =>
    intro q hq
    rcases List.mem_cons.mp hq with rfl | hq'
    · exact ⟨_, List.mem_cons_self _ _, hr⟩
    · obtain ⟨p, hp, hpq⟩ := ih q hq'
      exact ⟨p, List.mem_cons_of_mem _ hp, hpq⟩

/-- A member of the left list of a `Forall₂` has a related member on
the right. -/
theorem forall₂_mem_left {α β : Type} {R : α → β → Prop} :
    ∀ {l : List α} {tl : List β}, List.Forall₂ R l tl → ∀ p ∈ l, ∃ q ∈ tl, R p q := by
  intro l tl h
  induction h with
  | nil => intro p hp; simp at hp
  | cons hr _ ih =>
    intro p hp
    rcases List.mem_cons.mp hp with rfl | hp'
    · exact ⟨_, List.mem_cons_self _ _, hr⟩
    · obtain ⟨q, hq, hpq⟩ := ih p hp'
      exact ⟨q, List.mem_cons_of_mem _ hq, hpq⟩

/-- Function `takeWhile` keeps a list all of whose elements satisfy the
predicate. -/
theorem takeWhile_eq_self_of_all {p : Char → Bool} :
    ∀ l : List Char, (∀ c ∈ l, p c = true) → l.takeWhile p = l := by
  intro l
  induction l with
  | nil => intro _; rfl
  | cons a t ih =>
    intro h
    rw [List.takeWhile_cons, h a (List.mem_cons_self _ _)]
    simp [ih (fun c hc => h c (List.mem_cons_of_mem _ hc))]

/-- Function `dropWhile` drops a list all of whose elements satisfy the
predicate. -/
theorem dropWhile_eq_nil_of_all {p : Char → Bool} :
    ∀ l : List Char, (∀ c ∈ l, p c = true) → l.dropWhile p = [] := by
  intro l
  induction l with
  | nil => intro _; rfl
  | cons a t ih =>
    intro h
    rw [List.dropWhile_cons, h a (List.mem_cons_self _ _)]
    simp [ih (fun c hc => h c (List.mem_cons_of_mem _ hc))]

/-- Function `takeWhile` of an all-satisfying block followed by a failing
element. -/
theorem takeWhile_append_not {p : Char → Bool} {c : Char} (hc : p c = false) :
    ∀ (l r : List Char), (∀ x ∈ l, p x = true) →
      (l ++ c :: r).takeWhile p = l := by
  intro l
  induction l with
  | nil => intro r _; simp [List.takeWhile_cons, hc]
  | cons a t ih =>
    intro r h
    rw [List.cons_append, List.takeWhile_cons, h a (List.mem_cons_self _ _)]
    simp [ih r (fun x hx => h x (List.mem_cons_of_mem _ hx))]

/-- Function `dropWhile` of an all-satisfying block followed by a failing
element. -/
theorem dropWhile_append_not {p : Char → Bool} {c : Char} (hc : p c = false) :
    ∀ (l r : List Char), (∀ x ∈ l, p x = true) →
      (l ++ c :: r).dropWhile p = c :: r := by
  intro l
  induction l with
  | nil => intro r _; simp [List.dropWhile_cons, hc]
  | cons a t ih =>
    intro r h
    rw [List.cons_append, List.dropWhile_cons, h a (List.mem_cons_self _ _)]
    simp [ih r (fun x hx => h x (List.mem_cons_of_mem _ hx))]

/-! ## C6 — the legacy MSI collection -/

/-- C6: the claim says the legacy MSI collection records only subgroup
names among the known diagnostic device names.  Counterexample: the
`__new__` loop appends every key of the MSI group, so the unknown name
`'Bogus'` does appear in `found_diagnostics` although it is not a known
device name. -/
theorem foundDiagnostics_counterexample :
    "Bogus" ∈ Lapdhdf.foundDiagnostics ["Discharge", "Bogus"] ∧
    "Bogus" ∉ Lapdhdf.possibleDiagnosticGroups := by
  constructor
  · decide
  · decide

/-- C6 (amended): the legacy MSI collection `hdfMap_msi.__new__` records
every discovered subgroup name in `found_diagnostics`, whether or not it
is among the known diagnostic device names: the recorded list is exactly
the list of the MSI group's keys. -/
theorem foundDiagnostics_records_all (msiKeys : List String) :
    Lapdhdf.foundDiagnostics msiKeys = msiKeys := by
  unfold Lapdhdf.foundDiagnostics
  rw [foldl_append_singleton]
  simp

/-! ## C8 — legacy versus modern LaPD detection -/

/-- C8: the claim says the legacy substring-based `is_lapd_hdf` and the
modern exact-key `is_lapd_hdf` agree on every set of attribute keys.
Counterexample: a file whose only attribute key is `'lapd version'` is
accepted by the legacy predicate and rejected by the modern one. -/
theorem isLapdHdf_equiv_counterexample :
    Lapdhdf.isLapdHdf (oldStyleFile.attrs.map Prod.fst) = true ∧
    isLapdHdf oldStyleFile = false := by
  constructor
  · decide
  · decide

/-- C8 (amended): the modern predicate refines the legacy one in one
direction only: every file accepted by the modern exact-key
`is_lapd_hdf` is accepted by the legacy case-insensitive substring scan
(the key `'LaPD HDF5 software version'` casefolds to a string containing
`'lapd'`), but not conversely. -/
theorem modern_implies_legacy_isLapdHdf (f : HFile)
    (h : isLapdHdf f = true) :
    Lapdhdf.isLapdHdf (f.attrs.map Prod.fst) = true := by
  unfold isLapdHdf at h
  obtain ⟨b, hb⟩ := Option.isSome_iff_exists.mp h
  have hkey : "LaPD HDF5 software version" ∈ f.attrs.map Prod.fst :=
    mem_keys_of_lookup_eq_some hb
  unfold Lapdhdf.isLapdHdf
  rw [List.any_eq_true]
  exact ⟨"LaPD HDF5 software version", hkey, by decide⟩

/-- Witness for C8's amended theorem at a concrete file. -/
theorem modern_implies_legacy_isLapdHdf_witness :
    Lapdhdf.isLapdHdf (sampleFile.attrs.map Prod.fst) = true :=
  modern_implies_legacy_isLapdHdf sampleFile (by decide)

/-! ## C10 — the main digitizer -/

/-- C10: `main_digitizer` returns the `'SIS 3301'` mapping whenever that
digitizer was discovered; otherwise the `'SIS crate'` mapping if that
one was discovered; otherwise `None` — and the result is never a
digitizer other than these two. -/
theorem mainDigitizer_spec {β : Type} (digis : List (String × β)) :
    (∀ d, List.lookup "SIS 3301" digis = some d →
       mainDigitizer digis = some d) ∧
    (List.lookup "SIS 3301" digis = none →
       mainDigitizer digis = List.lookup "SIS crate" digis) ∧
    (∀ d, mainDigitizer digis = some d →
       List.lookup "SIS 3301" digis = some d ∨
       (List.lookup "SIS 3301" digis = none ∧
        List.lookup "SIS crate" digis = some d)) := by
  have hchar : mainDigitizer digis =
      (match List.lookup "SIS 3301" digis with
       | some d => some d
       | none => List.lookup "SIS crate" digis) := by
    simp only [mainDigitizer, possibleCandidates, mainDigitizerGo]
    cases List.lookup "SIS 3301" digis with
    | some d => rfl
    | none => cases List.lookup "SIS crate" digis <;> rfl
  refine ⟨?_, ?_, ?_⟩
  · intro d hd; rw [hchar, hd]
  · intro hn; rw [hchar, hn]
  · intro d hd
    rw [hchar] at hd
    cases h1 : List.lookup "SIS 3301" digis with
    | some d' =>
      rw [h1] at hd
      simp only [Option.some.injEq] at hd
      cases hd
      exact Or.inl rfl
    | none => rw [h1] at hd; exact Or.inr ⟨rfl, hd⟩

/-- Witness for C10 at a concrete digitizers dictionary. -/
theorem mainDigitizer_spec_witness :
    mainDigitizer [("SIS 3301", (1 : Nat)), ("SIS crate", 2)] = some 1 :=
  (mainDigitizer_spec [("SIS 3301", (1 : Nat)), ("SIS crate", 2)]).1 1 (by decide)

/-! ## C3, C7, C9 — the modern `hdfMap` constructor -/

/-- Property `has_msi_group` reads the file and never writes it. -/
theorem runHasMsiGroup_file (s : Bool) (st : FileSt) :
    ((runHasMsiGroup s st).2).1 = st.1 := by
  unfold runHasMsiGroup
  split <;> rfl

/-- Property `has_data_group` reads the file and never writes it. -/
theorem runHasDataGroup_file (s : Bool) (st : FileSt) :
    ((runHasDataGroup s st).2).1 = st.1 := by
  unfold runHasDataGroup
  split <;> rfl

/-- The boolean `has_msi_group` returns: the MSI group is present. -/
theorem runHasMsiGroup_val (s : Bool) (st : FileSt) :
    (runHasMsiGroup s st).1 = (List.lookup MSI_GNAME st.1.groups).isSome := by
  unfold runHasMsiGroup
  split
  · simp [*]
  · simp [*]

/-- The boolean `has_data_group` returns: the data group is present. -/
theorem runHasDataGroup_val (s : Bool) (st : FileSt) :
    (runHasDataGroup s st).1 = (List.lookup DATA_GNAME st.1.groups).isSome := by
  unfold runHasDataGroup
  split
  · simp [*]
  · simp [*]

/-- The warnings `has_msi_group` leaves behind. -/
theorem runHasMsiGroup_warns (s : Bool) (st : FileSt) :
    ((runHasMsiGroup s st).2).2 =
      if (List.lookup MSI_GNAME st.1.groups).isSome then st.2
      else if s then st.2
      else st.2 ++ ["No " ++ MSI_GNAME ++ " group found in " ++ st.1.filename] := by
  unfold runHasMsiGroup
  split
  · simp [*]
  · simp [*]

/-- The warnings `has_data_group` leaves behind. -/
theorem runHasDataGroup_warns (s : Bool) (st : FileSt) :
    ((runHasDataGroup s st).2).2 =
      if (List.lookup DATA_GNAME st.1.groups).isSome then st.2
      else if s then st.2
      else st.2 ++ ["No " ++ DATA_GNAME ++ " group found in " ++ st.1.filename] := by
  unfold runHasDataGroup
  split
  · simp [*]
  · simp [*]

/-- C7: mapping construction is a read-only transformation of the HDF5
file: running `hdfMap.__init__` on any file state leaves the file
component of the state exactly as it was — no group, dataset or
attribute is created, deleted or modified; only the result dictionaries
and the warning list are produced.  (The per-category collections are
modelled from the spec as pure, read-only functions of their group.) -/
theorem hdfMapInit_readonly {α β γ : Type} (mapMSI : HGroup → List (String × α))
    (mapDigis : HGroup → List (String × β))
    (mapCtls : HGroup → List (String × γ)) (silent : Bool) (st : FileSt) :
    ((hdfMapInit mapMSI mapDigis mapCtls silent st).2).1 = st.1 := by
  by_cases hc : isLapdHdf st.1 = false
  · simp [hdfMapInit, hc]
  · simp [hdfMapInit, hc, runHasMsiGroup_file, runHasDataGroup_file]

/-- C9: a successfully constructed `hdfMap` satisfies `is_lapd_hdf`
(the constructor raises `ValueError` otherwise), so the
`'LaPD HDF5 software version'` attribute exists on the file and the
`hdf_version` property raises no `KeyError`: it returns the decoded
version string. -/
theorem hdfMapInit_ok_version {α β γ : Type} (mapMSI : HGroup → List (String × α))
    (mapDigis : HGroup → List (String × β))
    (mapCtls : HGroup → List (String × γ)) (silent : Bool) (f : HFile)
    (w₀ : List String) (r : InitResult α β γ) (st' : FileSt)
    (h : hdfMapInit mapMSI mapDigis mapCtls silent (f, w₀) = (.ok r, st')) :
    isLapdHdf f = true ∧
    ∃ b, List.lookup "LaPD HDF5 software version" f.attrs = some b ∧
      hdfVersion f = some b.decodeUtf8 := by
  have hl : isLapdHdf f = true := by
    by_contra hc
    rw [Bool.not_eq_true] at hc
    unfold hdfMapInit at h
    rw [if_pos hc] at h
    exact Except.noConfusion (congrArg Prod.fst h)
  obtain ⟨b, hb⟩ := Option.isSome_iff_exists.mp hl
  exact ⟨hl, b, hb, by unfold hdfVersion; rw [hb]; rfl⟩

/-- Witness for C9 at a concrete file. -/
theorem hdfMapInit_ok_version_witness :
    isLapdHdf sampleFile = true ∧
    ∃ b, List.lookup "LaPD HDF5 software version" sampleFile.attrs = some b ∧
      hdfVersion sampleFile = some b.decodeUtf8 :=
  hdfMapInit_ok_version (fun _ => ([] : List (String × Nat)))
    (fun _ => ([] : List (String × Nat))) (fun _ => ([] : List (String × Nat)))
    false sampleFile [] _ _ rfl

/-- C3: the constructor attaches the per-category collections exactly
according to which known top-level groups are present: `msi` is the MSI
mapping dictionary when a group named `'MSI'` exists and the empty dict
otherwise; `digitizers` and `controls` are the corresponding dictionaries
when `'Raw data + config'` exists and empty dicts otherwise; an absent
group produces a warning, not an exception. -/
theorem hdfMapInit_attach_spec {α β γ : Type} (mapMSI : HGroup → List (String × α))
    (mapDigis : HGroup → List (String × β))
    (mapCtls : HGroup → List (String × γ)) (silent : Bool) (f : HFile)
    (w₀ : List String) (hl : isLapdHdf f = true) :
    ∃ r, (hdfMapInit mapMSI mapDigis mapCtls silent (f, w₀)).1 = Except.ok r ∧
      r.msi = (match List.lookup MSI_GNAME f.groups with
               | some g => mapMSI g
               | none => []) ∧
      r.digitizers = (match List.lookup DATA_GNAME f.groups with
                      | some g => mapDigis g
                      | none => []) ∧
      r.controls = (match List.lookup DATA_GNAME f.groups with
                    | some g => mapCtls g
                    | none => []) ∧
      (List.lookup MSI_GNAME f.groups = none →
        ("No " ++ MSI_GNAME ++ " group found in " ++ f.filename) ∈
          ((hdfMapInit mapMSI mapDigis mapCtls silent (f, w₀)).2).2) ∧
      (List.lookup DATA_GNAME f.groups = none →
        ("No " ++ DATA_GNAME ++ " group found in " ++ f.filename) ∈
          ((hdfMapInit mapMSI mapDigis mapCtls silent (f, w₀)).2).2) := by
  have hnl : ¬ (isLapdHdf f = false) := by rw [hl]; simp
  unfold hdfMapInit
  rw [if_neg hnl]
  refine ⟨_, rfl, ?_, ?_, ?_, ?_, ?_⟩ <;>
    simp only [runHasMsiGroup_val, runHasDataGroup_val, runHasMsiGroup_file,
      runHasDataGroup_file, runHasMsiGroup_warns, runHasDataGroup_warns] <;>
    cases hm : List.lookup MSI_GNAME f.groups <;>
    cases hd : List.lookup DATA_GNAME f.groups <;>
    simp [hm, hd, getGroupD, List.mem_append] <;>
    split_ifs <;>
    simp

/-- Witness for C3 at a concrete file (MSI group present, data group
absent). -/
theorem hdfMapInit_attach_spec_witness :
    ∃ r, (hdfMapInit (fun _ => ([] : List (String × Nat)))
        (fun _ => ([] : List (String × Nat)))
        (fun _ => ([] : List (String × Nat))) false (sampleFile, [])).1 =
          Except.ok r ∧
      r.msi = (match List.lookup MSI_GNAME sampleFile.groups with
               | some g => (fun (_ : HGroup) => ([] : List (String × Nat))) g
               | none => []) ∧
      r.digitizers = (match List.lookup DATA_GNAME sampleFile.groups with
                      | some g => (fun (_ : HGroup) => ([] : List (String × Nat))) g
                      | none => []) ∧
      r.controls = (match List.lookup DATA_GNAME sampleFile.groups with
                    | some g => (fun (_ : HGroup) => ([] : List (String × Nat))) g
                    | none => []) ∧
      (List.lookup MSI_GNAME sampleFile.groups = none →
        ("No " ++ MSI_GNAME ++ " group found in " ++ sampleFile.filename) ∈
          ((hdfMapInit (fun _ => ([] : List (String × Nat)))
            (fun _ => ([] : List (String × Nat)))
            (fun _ => ([] : List (String × Nat))) false (sampleFile, [])).2).2) ∧
      (List.lookup DATA_GNAME sampleFile.groups = none →
        ("No " ++ DATA_GNAME ++ " group found in " ++ sampleFile.filename) ∈
          ((hdfMapInit (fun _ => ([] : List (String × Nat)))
            (fun _ => ([] : List (String × Nat)))
            (fun _ => ([] : List (String × Nat))) false (sampleFile, [])).2).2) :=
  hdfMapInit_attach_spec (fun _ => ([] : List (String × Nat)))
    (fun _ => ([] : List (String × Nat))) (fun _ => ([] : List (String × Nat)))
    false sampleFile [] (by decide)

/-! ## C2, C4, C5 — the N5700 `_build_configs` -/

/-- A successful `buildOne` determines every field of the produced
configuration from the group and the subgroup's attributes. -/
theorem buildOne_ok_fields (g : NControlGroup) (csvd : CSVD) (cong : NSubGroup)
    (c : NConfig) (h : buildOne g csvd cong = .ok c) :
    ∃ d shp b,
      List.lookup constructDatasetName g.members = some (.dset d) ∧
      List.lookup "Shot number" d.dtypeFields = some shp ∧
      List.lookup "N5700 power supply command list" cong.attrs = some b ∧
      c = { ipAddress := (List.lookup "IP address" cong.attrs).map NpBytes.decodeUtf8
            powerSupplyDevice :=
              (List.lookup "Model Number" cong.attrs).map NpBytes.decodeUtf8
            initialState :=
              (List.lookup "Initialization commands" cong.attrs).map NpBytes.decodeUtf8
            commandList :=
              (pySplitlines b.decodeUtf8.data).map (fun l => String.mk (pyStrip l))
            dsetPaths := d.name
            shotnumDsetPaths := d.name
            shotnumDsetField := ["Shot number"]
            shotnumShape := shp
            shotnumDtype := .int32
            stateValues :=
              (fun cl =>
                (fun sv => if sv.isEmpty then defaultStateValuesDict d.name cl else sv)
                  (match csvd cl n5700ClRePatterns with
                   | .ok svd => svd
                   | .error _ => []))
                ((pySplitlines b.decodeUtf8.data).map (fun l => String.mk (pyStrip l))) } := by
  unfold buildOne at h
  split at h
  · exact absurd h (by simp)
  · rename_i m hm
    dsimp only at h
    split at h
    · exact absurd h (by simp)
    · rename_i b hcl
      split at h
      · exact absurd h (by simp)
      · rename_i d
        split at h
        · exact absurd h (by simp)
        · rename_i shp hsn
          simp only [Except.ok.injEq] at h
          exact ⟨d, shp, b, hm, hsn, hcl, h.symm⟩

/-- Under a well-formed run-time list, `buildOne` never hits the
uncaught-exception paths. -/
theorem buildOne_not_uncaught (g : NControlGroup) (csvd : CSVD)
    (cong : NSubGroup) (hw : rtlWellFormed g = true) :
    buildOne g csvd cong ≠ Except.error BuildErr.uncaught := by
  unfold rtlWellFormed at hw
  cases hm : List.lookup constructDatasetName g.members with
  | none => simp [buildOne, hm]
  | some m =>
    rw [hm] at hw
    cases m with
    | grp sg => exact absurd hw (by simp)
    | dset d =>
      have hw' : (List.lookup "Shot number" d.dtypeFields).isSome = true := hw
      obtain ⟨shp, hsn⟩ := Option.isSome_iff_exists.mp hw'
      cases hcl : List.lookup "N5700 power supply command list" cong.attrs with
      | none => simp [buildOne, hm, hcl]
      | some b => simp [buildOne, hm, hcl, hsn]

/-- Under a well-formed run-time list, `buildOne` fails exactly when
the `'Run time list'` member is absent or the command-list attribute
is absent. -/
theorem buildOne_error_iff (g : NControlGroup) (csvd : CSVD)
    (cong : NSubGroup) (hw : rtlWellFormed g = true) :
    (∃ e, buildOne g csvd cong = .error e) ↔
      (List.lookup constructDatasetName g.members = none ∨
       List.lookup "N5700 power supply command list" cong.attrs = none) := by
  unfold rtlWellFormed at hw
  cases hm : List.lookup constructDatasetName g.members with
  | none => simp [buildOne, hm]
  | some m =>
    rw [hm] at hw
    cases m with
    | grp sg => exact absurd hw (by simp)
    | dset d =>
      have hw' : (List.lookup "Shot number" d.dtypeFields).isSome = true := hw
      obtain ⟨shp, hsn⟩ := Option.isSome_iff_exists.mp hw'
      cases hcl : List.lookup "N5700 power supply command list" cong.attrs with
      | none => simp [buildOne, hm, hcl]
      | some b => simp [buildOne, hm, hcl, hsn]

/-- A successful loop run produces one configuration per subgroup, in
order, each by a successful `buildOne`. -/
theorem buildGo_ok_forall₂ (g : NControlGroup) (csvd : CSVD) :
    ∀ (l : List (String × NSubGroup)) (acc cfgs : List (String × NConfig)),
      buildConfigsGo g csvd acc l = .ok cfgs →
      ∃ tl, cfgs = acc ++ tl ∧
        List.Forall₂ (fun p q => p.1 = q.1 ∧ buildOne g csvd p.2 = Except.ok q.2)
          l tl := by
  intro l
  induction l with
  | nil =>
    intro acc cfgs h
    unfold buildConfigsGo at h
    simp only [BuildResult.ok.injEq] at h
    exact ⟨[], by simp [h], List.Forall₂.nil⟩
  | cons p rest ih =>
    intro acc cfgs h
    obtain ⟨nm, cong⟩ := p
    unfold buildConfigsGo at h
    cases hb : buildOne g csvd cong with
    | ok c =>
      rw [hb] at h
      obtain ⟨tl, htl, hf⟩ := ih (acc ++ [(nm, c)]) cfgs h
      exact ⟨(nm, c) :: tl, by simp [htl], List.Forall₂.cons ⟨rfl, hb⟩ hf⟩
    | error e =>
      rw [hb] at h
      cases e <;> exact absurd h (by simp)

/-- Under a well-formed run-time list, the loop never raises. -/
theorem buildGo_ne_raised (g : NControlGroup) (csvd : CSVD)
    (hw : rtlWellFormed g = true) :
    ∀ (l : List (String × NSubGroup)) (acc : List (String × NConfig)),
      buildConfigsGo g csvd acc l ≠ .raised := by
  intro l
  induction l with
  | nil => intro acc; unfold buildConfigsGo; simp
  | cons p rest ih =>
    intro acc
    obtain ⟨nm, cong⟩ := p
    unfold buildConfigsGo
    cases hb : buildOne g csvd cong with
    | ok c => exact ih _
    | error e =>
      cases e with
      | dsetNotFound => simp
      | clNotFound => simp
      | uncaught => exact absurd hb (buildOne_not_uncaught g csvd cong hw)

/-- Under a well-formed run-time list, the loop fails exactly when some
subgroup makes `buildOne` fail. -/
theorem buildGo_failed_iff (g : NControlGroup) (csvd : CSVD)
    (hw : rtlWellFormed g = true) :
    ∀ (l : List (String × NSubGroup)) (acc : List (String × NConfig)),
      (buildConfigsGo g csvd acc l = .failed ↔
        ∃ p ∈ l, ∃ e, buildOne g csvd p.2 = .error e) := by
  intro l
  induction l with
  | nil => intro acc; unfold buildConfigsGo; simp
  | cons p rest ih =>
    intro acc
    obtain ⟨nm, cong⟩ := p
    unfold buildConfigsGo
    cases hb : buildOne g csvd cong with
    | ok c =>
      rw [ih]
      constructor
      · intro ⟨q, hq, he⟩; exact ⟨q, List.mem_cons_of_mem _ hq, he⟩
      · intro ⟨q, hq, e, he⟩
        rcases List.mem_cons.mp hq with rfl | hq'
        · rw [hb] at he; exact absurd he (by simp)
        · exact ⟨q, hq', e, he⟩
    | error e =>
      cases e with
      | dsetNotFound => simp only [true_iff]; exact ⟨(nm, cong), List.mem_cons_self _ _, _, hb⟩
      | clNotFound => simp only [true_iff]; exact ⟨(nm, cong), List.mem_cons_self _ _, _, hb⟩
      | uncaught => exact absurd hb (buildOne_not_uncaught g csvd cong hw)

/-- C2 (amended): for every control group whose `'Run time list'`
member, when present, is a dataset with a `'Shot number'` dtype field,
`_build_configs` terminates with `_build_successful` exactly `True` or
`False`, and the flag is `False` iff the group has no subgroups, the
`'Run time list'` dataset is absent, or some configuration subgroup
lacks the `'N5700 power supply command list'` attribute; a missing
`'IP address'`, `'Model Number'` or `'Initialization commands'`
attribute does not fail the build: the corresponding config value is
set to `None` and mapping continues. -/
theorem buildConfigs_flag_spec (g : NControlGroup) (csvd : CSVD)
    (hw : rtlWellFormed g = true) :
    buildConfigs g csvd ≠ .raised ∧
    (buildConfigs g csvd = .failed ↔
      (sgroups g = [] ∨
       List.lookup constructDatasetName g.members = none ∨
       ∃ p ∈ sgroups g,
         List.lookup "N5700 power supply command list" p.2.attrs = none)) ∧
    (∀ cfgs, buildConfigs g csvd = .ok cfgs →
      List.Forall₂ (fun p q =>
        (List.lookup "IP address" p.2.attrs = none → q.2.ipAddress = none) ∧
        (List.lookup "Model Number" p.2.attrs = none →
          q.2.powerSupplyDevice = none) ∧
        (List.lookup "Initialization commands" p.2.attrs = none →
          q.2.initialState = none)) (sgroups g) cfgs) := by
  unfold buildConfigs
  by_cases hsg : (sgroups g).isEmpty = true
  · rw [if_pos hsg]
    refine ⟨by simp, ?_, by intro cfgs hc; exact absurd hc (by simp)⟩
    rw [List.isEmpty_iff] at hsg
    simp [hsg]
  · rw [if_neg hsg]
    have hne : sgroups g ≠ [] := by
      intro hnil
      exact hsg (by rw [hnil]; rfl)
    refine ⟨buildGo_ne_raised g csvd hw _ _, ?_, ?_⟩
    · rw [buildGo_failed_iff g csvd hw]
      constructor
      · rintro ⟨p, hp, e, he⟩
        rcases (buildOne_error_iff g csvd p.2 hw).mp ⟨e, he⟩ with hc | hc
        · exact Or.inr (Or.inl hc)
        · exact Or.inr (Or.inr ⟨p, hp, hc⟩)
      · rintro (hc | hc | ⟨p, hp, hc⟩)
        · exact absurd hc hne
        · obtain ⟨p, hp⟩ := List.exists_mem_of_ne_nil _ hne
          exact ⟨p, hp, (buildOne_error_iff g csvd p.2 hw).mpr (Or.inl hc)⟩
        · exact ⟨p, hp, (buildOne_error_iff g csvd p.2 hw).mpr (Or.inr hc)⟩
    · intro cfgs hc
      obtain ⟨tl, htl, hf⟩ := buildGo_ok_forall₂ g csvd (sgroups g) [] cfgs hc
      simp only [List.nil_append] at htl
      subst htl
      refine hf.imp ?_
      intro p q hpq
      obtain ⟨d, shp, b, hm, hsn, hcl, hcq⟩ :=
        buildOne_ok_fields g csvd p.2 q.2 hpq.2
      refine ⟨?_, ?_, ?_⟩ <;> intro hnone <;> rw [hcq] <;> simp [hnone]

/-- C2 counterexample: on a control group whose `'Run time list'`
dataset has no `'Shot number'` dtype field but whose configuration
subgroup has its command-list attribute, `_build_configs` does not
terminate with the flag `True` or `False`: the uncaught `KeyError` from
`dset.dtype['Shot number']` propagates (modelled by `.raised`). -/
theorem buildConfigs_dtype_counterexample :
    buildConfigs badDtypeControlGroup sampleCSVD = .raised := by rfl

/-- Witness for C2's amended theorem at a concrete control group. -/
theorem buildConfigs_flag_spec_witness :
    buildConfigs sampleControlGroup sampleCSVD ≠ .raised ∧
    (buildConfigs sampleControlGroup sampleCSVD = .failed ↔
      (sgroups sampleControlGroup = [] ∨
       List.lookup constructDatasetName sampleControlGroup.members = none ∨
       ∃ p ∈ sgroups sampleControlGroup,
         List.lookup "N5700 power supply command list" p.2.attrs = none)) :=
  ⟨(buildConfigs_flag_spec sampleControlGroup sampleCSVD (by decide)).1,
   (buildConfigs_flag_spec sampleControlGroup sampleCSVD (by decide)).2.1⟩

/-- C4: when the N5700 build succeeds, the configs dictionary has
exactly one entry per configuration subgroup, keyed by the subgroup
name and in subgroup order, and every entry holds the normalized
structure: `'dset paths'` is the HDF5 path of the `'Run time list'`
dataset; the `'shotnum'` sub-dictionary has dset field
`('Shot number',)`, the shape from the dataset's compound dtype and
dtype `numpy.int32`; the string metadata are the decoded byte-string
attributes; and `'command list'` is the tuple of whitespace-stripped
lines of the decoded command-list attribute. -/
theorem buildConfigs_ok_spec (g : NControlGroup) (csvd : CSVD)
    (cfgs : List (String × NConfig)) (h : buildConfigs g csvd = .ok cfgs) :
    ∃ d, List.lookup constructDatasetName g.members = some (.dset d) ∧
      List.Forall₂ (fun p q =>
        q.1 = p.1 ∧
        q.2.dsetPaths = d.name ∧
        q.2.shotnumDsetPaths = d.name ∧
        q.2.shotnumDsetField = ["Shot number"] ∧
        (∃ shp, List.lookup "Shot number" d.dtypeFields = some shp ∧
          q.2.shotnumShape = shp) ∧
        q.2.shotnumDtype = NpDType.int32 ∧
        q.2.ipAddress = (List.lookup "IP address" p.2.attrs).map NpBytes.decodeUtf8 ∧
        q.2.powerSupplyDevice =
          (List.lookup "Model Number" p.2.attrs).map NpBytes.decodeUtf8 ∧
        q.2.initialState =
          (List.lookup "Initialization commands" p.2.attrs).map NpBytes.decodeUtf8 ∧
        (∃ b, List.lookup "N5700 power supply command list" p.2.attrs = some b ∧
          q.2.commandList =
            (pySplitlines b.decodeUtf8.data).map (fun l => String.mk (pyStrip l))))
        (sgroups g) cfgs := by
  unfold buildConfigs at h
  by_cases hsg : (sgroups g).isEmpty = true
  · rw [if_pos hsg] at h; exact absurd h (by simp)
  · rw [if_neg hsg] at h
    obtain ⟨tl, htl, hf⟩ := buildGo_ok_forall₂ g csvd (sgroups g) [] cfgs h
    simp only [List.nil_append] at htl
    subst htl
    obtain ⟨p₀, hp₀⟩ : ∃ p₀, p₀ ∈ sgroups g := by
      refine List.exists_mem_of_ne_nil _ ?_
      intro hnil
      exact hsg (by rw [hnil]; rfl)
    obtain ⟨q₀, hq₀, hpq₀⟩ := forall₂_mem_left hf p₀ hp₀
    obtain ⟨d, shp, b, hm, hsn, hcl, hc₀⟩ :=
      buildOne_ok_fields g csvd p₀.2 q₀.2 hpq₀.2
    refine ⟨d, hm, hf.imp ?_⟩
    intro p q hpq
    obtain ⟨d', shp', b', hm', hsn', hcl', hcq⟩ :=
      buildOne_ok_fields g csvd p.2 q.2 hpq.2
    rw [hm] at hm'
    simp only [Option.some.injEq, NMember.dset.injEq] at hm'
    subst hm'
    exact ⟨hpq.1.symm, by rw [hcq], by rw [hcq], by rw [hcq],
      ⟨shp', hsn', by rw [hcq]⟩, by rw [hcq], by rw [hcq], by rw [hcq],
      by rw [hcq], ⟨b', hcl', by rw [hcq]⟩⟩

/-- Witness for C4 at a concrete control group. -/
theorem buildConfigs_ok_spec_witness :
    ∃ cfgs, buildConfigs sampleControlGroup sampleCSVD = .ok cfgs ∧
      ∃ d, List.lookup constructDatasetName sampleControlGroup.members =
          some (.dset d) ∧
        List.Forall₂ (fun p q =>
          q.1 = p.1 ∧
          q.2.dsetPaths = d.name ∧
          q.2.shotnumDsetPaths = d.name ∧
          q.2.shotnumDsetField = ["Shot number"] ∧
          (∃ shp, List.lookup "Shot number" d.dtypeFields = some shp ∧
            q.2.shotnumShape = shp) ∧
          q.2.shotnumDtype = NpDType.int32 ∧
          q.2.ipAddress =
            (List.lookup "IP address" p.2.attrs).map NpBytes.decodeUtf8 ∧
          q.2.powerSupplyDevice =
            (List.lookup "Model Number" p.2.attrs).map NpBytes.decodeUtf8 ∧
          q.2.initialState =
            (List.lookup "Initialization commands" p.2.attrs).map
              NpBytes.decodeUtf8 ∧
          (∃ b, List.lookup "N5700 power supply command list" p.2.attrs =
              some b ∧
            q.2.commandList =
              (pySplitlines b.decodeUtf8.data).map
                (fun l => String.mk (pyStrip l))))
          (sgroups sampleControlGroup) cfgs :=
  ⟨_, rfl, buildConfigs_ok_spec sampleControlGroup sampleCSVD _ rfl⟩

/-- C5: for every successfully mapped configuration, the
`'state values'` entry is the dictionary obtained from
`_construct_state_values_dict` on the configuration's command list and
the registered RE patterns when that dictionary is non-empty (`{}` when
it raised `KeyError`), and otherwise the default state-values
dictionary, whose single `'command'` entry associates the dataset field
`('Command index',)` with the full command list, has `'re pattern'`
`None` and scalar shape `()`. -/
theorem buildConfigs_stateValues_spec (g : NControlGroup) (csvd : CSVD)
    (cfgs : List (String × NConfig)) (h : buildConfigs g csvd = .ok cfgs) :
    (∀ p ∈ cfgs, p.2.stateValues =
      (fun sv => if sv.isEmpty then
          defaultStateValuesDict p.2.dsetPaths p.2.commandList else sv)
        (match csvd p.2.commandList n5700ClRePatterns with
         | .ok svd => svd
         | .error _ => [])) ∧
    (∀ dp cl, ∃ e, defaultStateValuesDict dp cl = [("command", e)] ∧
      e.dsetField = ["Command index"] ∧ e.rePattern = none ∧
      e.commandList = cl ∧ e.shape = []) := by
  constructor
  · intro p hp
    unfold buildConfigs at h
    by_cases hsg : (sgroups g).isEmpty = true
    · rw [if_pos hsg] at h; exact absurd h (by simp)
    · rw [if_neg hsg] at h
      obtain ⟨tl, htl, hf⟩ := buildGo_ok_forall₂ g csvd (sgroups g) [] cfgs h
      simp only [List.nil_append] at htl
      subst htl
      obtain ⟨src, hsrc, hpq⟩ := forall₂_mem_right hf p hp
      obtain ⟨d, shp, b, hm, hsn, hcl, hc⟩ :=
        buildOne_ok_fields g csvd src.2 p.2 hpq.2
      rw [hc]
  · intro dp cl
    exact ⟨_, rfl, rfl, rfl, rfl, rfl⟩

/-- Witness for C5 at a concrete control group. -/
theorem buildConfigs_stateValues_spec_witness :
    ∃ cfgs, buildConfigs sampleControlGroup sampleCSVD = .ok cfgs ∧
      (∀ p ∈ cfgs, p.2.stateValues =
        (fun sv => if sv.isEmpty then
            defaultStateValuesDict p.2.dsetPaths p.2.commandList else sv)
          (match sampleCSVD p.2.commandList n5700ClRePatterns with
           | .ok svd => svd
           | .error _ => [])) ∧
      (∀ dp cl, ∃ e, defaultStateValuesDict dp cl = [("command", e)] ∧
        e.dsetField = ["Command index"] ∧ e.rePattern = none ∧
        e.commandList = cl ∧ e.shape = []) :=
  ⟨_, rfl,
   (buildConfigs_stateValues_spec sampleControlGroup sampleCSVD _ rfl).1,
   (buildConfigs_stateValues_spec sampleControlGroup sampleCSVD _ rfl).2⟩

/-! ## C1 — the voltage pattern -/

/-- Alternative `matchNumAlt3` returns its digit-run argument unchanged, and only
when it is a non-empty digit run. -/
theorem matchNumAlt3_sound (ds rest v r : List Char)
    (h : matchNumAlt3 ds rest = some (v, r))
    (hds : ∀ c ∈ ds, isDigitC c = true) :
    numLitShape v ∧ v = ds ∧ r = rest := by
  unfold matchNumAlt3 at h
  split at h
  · exact absurd h (by simp)
  · rename_i hne
    split at h
    · simp only [Option.some.injEq, Prod.mk.injEq] at h
      refine ⟨Or.inr (Or.inr ⟨?_, ?_⟩), h.1.symm, h.2.symm⟩
      · rw [← h.1]; intro hnil; rw [hnil] at hne; exact hne rfl
      · rw [← h.1]; exact List.all_eq_true.mpr hds
    · rename_i c hc
      split at h
      · exact absurd h (by simp)
      · simp only [Option.some.injEq, Prod.mk.injEq] at h
        refine ⟨Or.inr (Or.inr ⟨?_, ?_⟩), h.1.symm, h.2.symm⟩
        · rw [← h.1]; intro hnil; rw [hnil] at hne; exact hne rfl
        · rw [← h.1]; exact List.all_eq_true.mpr hds

/-- Alternative `matchNumAlt2` produces a numeric literal that is an exact prefix
of the input. -/
theorem matchNumAlt2_sound (suf ds rest v r : List Char)
    (h : matchNumAlt2 suf ds rest = some (v, r))
    (hds : ∀ c ∈ ds, isDigitC c = true) (hsplit : suf = ds ++ rest) :
    numLitShape v ∧ suf = v ++ r := by
  unfold matchNumAlt2 at h
  split at h
  · rename_i r2
    dsimp only at h
    split at h
    · obtain ⟨hsh, hv, hr⟩ := matchNumAlt3_sound ds rest v r h hds
      subst hv; subst hr
      exact ⟨hsh, hsplit⟩
    · rename_i hne
      simp only [Option.some.injEq, Prod.mk.injEq] at h
      obtain ⟨hv, hr⟩ := h
      subst hv; subst hr
      constructor
      · refine Or.inr (Or.inl ⟨r2.takeWhile isDigitC, rfl, ?_, ?_⟩)
        · intro hnil; rw [hnil] at hne; exact hne rfl
        · exact List.all_eq_true.mpr (fun c hc => List.mem_takeWhile_imp hc)
      · rw [List.cons_append, List.takeWhile_append_dropWhile]
  · obtain ⟨hsh, hv, hr⟩ := matchNumAlt3_sound ds rest v r h hds
    subst hv; subst hr
    exact ⟨hsh, hsplit⟩

/-- The alternation produces a numeric literal that is an exact prefix
of the input. -/
theorem matchNumAt_sound (suf v r : List Char)
    (h : matchNumAt suf = some (v, r)) :
    numLitShape v ∧ suf = v ++ r := by
  have hall : ∀ c ∈ suf.takeWhile isDigitC, isDigitC c = true :=
    fun c hc => List.mem_takeWhile_imp hc
  have hsplit : suf = suf.takeWhile isDigitC ++ suf.dropWhile isDigitC :=
    (List.takeWhile_append_dropWhile isDigitC suf).symm
  unfold matchNumAt at h
  dsimp only at h
  split at h
  · exact matchNumAlt2_sound suf _ _ v r h hall hsplit
  · rename_i hne
    split at h
    · rename_i r2 heq
      simp only [Option.some.injEq, Prod.mk.injEq] at h
      obtain ⟨hv, hr⟩ := h
      subst hv; subst hr
      constructor
      · refine Or.inl ⟨suf.takeWhile isDigitC, r2.takeWhile isDigitC, rfl, ?_, ?_, ?_⟩
        · intro hnil; rw [hnil] at hne; exact hne rfl
        · exact List.all_eq_true.mpr hall
        · exact List.all_eq_true.mpr (fun c hc => List.mem_takeWhile_imp hc)
      · conv_lhs => rw [hsplit, heq]
        rw [List.append_assoc, List.cons_append, List.takeWhile_append_dropWhile]
    · exact matchNumAlt2_sound suf _ _ v r h hall hsplit

/-- A non-empty all-digit run is matched whole by the alternation. -/
theorem matchNumAt_digits (ds : List Char) (h1 : ds ≠ [])
    (h2 : ∀ c ∈ ds, isDigitC c = true) :
    matchNumAt ds = some (ds, []) := by
  have htw := takeWhile_eq_self_of_all ds h2
  have hdw := dropWhile_eq_nil_of_all ds h2
  have hie : ds.isEmpty = false := by
    cases ds with
    | nil => exact absurd rfl h1
    | cons a t => rfl
  unfold matchNumAt
  rw [htw, hdw]
  dsimp only
  rw [hie]
  simp only [Bool.false_eq_true, if_false]
  unfold matchNumAlt2
  split
  · rename_i r2
    exact absurd (h2 '.' (List.mem_cons_self _ _)) (by decide)
  · unfold matchNumAlt3
    rw [hie]
    simp

/-- A literal of the shape digits `.` optional-digits is matched whole
by the alternation. -/
theorem matchNumAt_shape1 (ds ds2 : List Char) (h1 : ds ≠ [])
    (h2 : ∀ c ∈ ds, isDigitC c = true) (h3 : ∀ c ∈ ds2, isDigitC c = true) :
    matchNumAt (ds ++ '.' :: ds2) = some (ds ++ '.' :: ds2, []) := by
  have htw := takeWhile_append_not (p := isDigitC) (c := '.') (by decide) ds ds2 h2
  have hdw := dropWhile_append_not (p := isDigitC) (c := '.') (by decide) ds ds2 h2
  have hie : ds.isEmpty = false := by
    cases ds with
    | nil => exact absurd rfl h1
    | cons a t => rfl
  unfold matchNumAt
  rw [htw, hdw]
  dsimp only
  rw [hie]
  simp only [Bool.false_eq_true, if_false]
  rw [takeWhile_eq_self_of_all ds2 h3, dropWhile_eq_nil_of_all ds2 h3]

/-- A literal of the shape `.` digits is matched whole by the
alternation. -/
theorem matchNumAt_shape2 (ds2 : List Char) (h1 : ds2 ≠ [])
    (h2 : ∀ c ∈ ds2, isDigitC c = true) :
    matchNumAt ('.' :: ds2) = some ('.' :: ds2, []) := by
  have htw : ('.' :: ds2).takeWhile isDigitC = [] := by
    rw [List.takeWhile_cons]
    simp [show isDigitC '.' = false by decide]
  have hdw : ('.' :: ds2).dropWhile isDigitC = '.' :: ds2 := by
    rw [List.dropWhile_cons]
    simp [show isDigitC '.' = false by decide]
  have hie : ds2.isEmpty = false := by
    cases ds2 with
    | nil => exact absurd rfl h1
    | cons a t => rfl
  unfold matchNumAt
  rw [htw, hdw]
  dsimp only
  simp only [List.isEmpty_nil, if_true]
  unfold matchNumAlt2
  split
  · rename_i r2 heq
    injection heq with heq1 heq2
    subst heq2
    dsimp only
    rw [takeWhile_eq_self_of_all ds2 h2, dropWhile_eq_nil_of_all ds2 h2, hie]
    simp
  · rename_i hne
    exact absurd rfl (hne ds2)

/-- Every numeric literal of the claimed shapes is matched whole by the
alternation. -/
theorem matchNumAt_complete (num : List Char) (h : numLitShape num) :
    matchNumAt num = some (num, []) := by
  rcases h with ⟨ds, ds2, rfl, h1, h2, h3⟩ | ⟨ds2, rfl, h1, h2⟩ | ⟨h1, h2⟩
  · exact matchNumAt_shape1 ds ds2 h1 (List.all_eq_true.mp h2) (List.all_eq_true.mp h3)
  · exact matchNumAt_shape2 ds2 h1 (List.all_eq_true.mp h2)
  · exact matchNumAt_digits num h1 (List.all_eq_true.mp h2)

/-- Stripping the literal prefix off a string that carries it. -/
theorem stripPrefixL_append : ∀ p r : List Char, stripPrefixL p (p ++ r) = some r := by
  intro p
  induction p with
  | nil => intro r; rfl
  | cons a t ih =>
    intro r
    rw [List.cons_append]
    unfold stripPrefixL
    simp [ih r]

/-- A successful prefix strip decomposes the string. -/
theorem stripPrefixL_sound : ∀ p s r : List Char,
    stripPrefixL p s = some r → s = p ++ r := by
  intro p
  induction p with
  | nil =>
    intro s r h
    unfold stripPrefixL at h
    simp only [Option.some.injEq] at h
    rw [h, List.nil_append]
  | cons a t ih =>
    intro s r h
    cases s with
    | nil => exact absurd h (by unfold stripPrefixL; simp)
    | cons c cs =>
      unfold stripPrefixL at h
      split at h
      · rename_i hac
        rw [List.cons_append, eq_of_beq hac]
        exact congrArg _ (ih cs r h)
      · exact absurd h (by simp)

/-- The anchored pattern matches at the head of
`SOURCE:VOLTAGE:LEVEL` + whitespace + a fully matching number. -/
theorem matchVoltAt_at_head (num : List Char) (c : Char)
    (hc : isSpaceC c = true) (hm : matchNumAt num = some (num, [])) :
    matchVoltAt none (svlChars ++ c :: num) = some num := by
  have hhead : (svlChars ++ c :: num).head? = some 'S' := rfl
  have hb : wordBoundaryB none (svlChars ++ c :: num).head? = true := by
    rw [hhead]; decide
  unfold matchVoltAt
  rw [hb, stripPrefixL_append svlChars (c :: num)]
  simp only [if_true]
  rw [hc]
  simp only [if_true]
  rw [hm]
  rfl

/-- A successful anchored match decomposes the string into the literal,
one whitespace character and the numeric tail. -/
theorem matchVoltAt_sound (prev : Option Char) (s v : List Char)
    (h : matchVoltAt prev s = some v) :
    ∃ c r2 rest, s = svlChars ++ c :: r2 ∧ isSpaceC c = true ∧
      matchNumAt r2 = some (v, rest) := by
  unfold matchVoltAt at h
  split at h
  · split at h
    · rename_i c r2 heq
      split at h
      · rename_i hc
        rw [Option.map_eq_some'] at h
        obtain ⟨⟨v', rest⟩, hmn, hv⟩ := h
        cases hv
        exact ⟨c, r2, rest, stripPrefixL_sound svlChars s (c :: r2) heq, hc, hmn⟩
      · exact absurd h (by simp)
    · exact absurd h (by simp)
    · exact absurd h (by simp)
  · exact absurd h (by simp)

/-- One step of the search: try the current position, else advance. -/
theorem clSearchVal_eq (prev : Option Char) (s : List Char) :
    clSearchVal prev s =
      (match matchVoltAt prev s with
       | some v => some v
       | none =>
         match s with
         | [] => none
         | c :: rest => clSearchVal (some c) rest) := by
  cases s <;> rfl

/-- The search returns the anchored match when one starts at the
current position. -/
theorem clSearchVal_here (prev : Option Char) (s v : List Char)
    (h : matchVoltAt prev s = some v) : clSearchVal prev s = some v := by
  rw [clSearchVal_eq, h]

/-- Any value the search returns comes from an anchored match at some
position of the string. -/
theorem clSearchVal_sound : ∀ (s : List Char) (prev : Option Char)
    (v : List Char), clSearchVal prev s = some v →
    ∃ pre rest, s = pre ++ rest ∧ ∃ pv, matchVoltAt pv rest = some v := by
  intro s
  induction s with
  | nil =>
    intro prev v h
    rw [clSearchVal_eq] at h
    cases hm : matchVoltAt prev [] with
    | some w =>
      rw [hm] at h
      simp only [Option.some.injEq] at h
      exact ⟨[], [], rfl, prev, by rw [hm, h]⟩
    | none => rw [hm] at h; exact absurd h (by simp)
  | cons c rest ih =>
    intro prev v h
    rw [clSearchVal_eq] at h
    cases hm : matchVoltAt prev (c :: rest) with
    | some w =>
      rw [hm] at h
      simp only [Option.some.injEq] at h
      exact ⟨[], c :: rest, rfl, prev, by rw [hm, h]⟩
    | none =>
      rw [hm] at h
      obtain ⟨pre, r, hr, pv, hpv⟩ := ih (some c) v h
      exact ⟨c :: pre, r, by rw [List.cons_append, ← hr], pv, hpv⟩

/-- C1 (amended): for every string of the form `'SOURCE:VOLTAGE:LEVEL '`
followed by a decimal numeric literal of the three shapes, the pattern
matches and `VAL` captures exactly that literal; and every string the
pattern matches contains a fragment `SOURCE:VOLTAGE:LEVEL` followed by
a single whitespace character (not necessarily a space) and a numeric
literal. -/
theorem voltPattern_val_spec :
    (∀ num : List Char, numLitShape num →
       clSearchVal none (svlChars ++ ' ' :: num) = some num) ∧
    (∀ s v : List Char, clSearchVal none s = some v → hasSvlWsFragment s) := by
  constructor
  · intro num h
    exact clSearchVal_here none _ num
      (matchVoltAt_at_head num ' ' (by decide) (matchNumAt_complete num h))
  · intro s v h
    obtain ⟨pre, rest, hs, pv, hpv⟩ := clSearchVal_sound s none v h
    obtain ⟨c, r2, rest2, hrest, hc, hmn⟩ := matchVoltAt_sound pv rest v hpv
    obtain ⟨hshape, hr2⟩ := matchNumAt_sound r2 v rest2 hmn
    refine ⟨pre, c, v, rest2, hc, hshape, ?_⟩
    rw [hs, hrest, hr2]
    simp [List.append_assoc]

/-- C1 counterexample: the pattern's `\s` accepts any whitespace, so
the string `"SOURCE:VOLTAGE:LEVEL\t42"` is matched (with `VAL = "42"`)
although it contains no `'SOURCE:VOLTAGE:LEVEL '`-plus-literal fragment
with a space, contradicting the claim's second sentence as stated. -/
theorem voltPattern_counterexample :
    clSearchVal none ("SOURCE:VOLTAGE:LEVEL\t42".data) = some ("42".data) ∧
    ¬ hasSvlSpaceFragment ("SOURCE:VOLTAGE:LEVEL\t42".data) := by
  constructor
  · rfl
  · rintro ⟨pre, num, post, hshape, heq⟩
    have hsp : (' ' : Char) ∈ "SOURCE:VOLTAGE:LEVEL\t42".data := by
      rw [heq]
      refine List.mem_append_right _ ?_
      exact List.mem_cons_self _ _
    exact absurd hsp (by decide)

/-- Witness for C1's amended theorem at concrete strings. -/
theorem voltPattern_val_spec_witness :
    clSearchVal none ("SOURCE:VOLTAGE:LEVEL 12.5".data) = some ("12.5".data) ∧
    hasSvlWsFragment ("SOURCE:VOLTAGE:LEVEL 7".data) := by
  constructor
  · have h := voltPattern_val_spec.1 ("12.5".data)
      (Or.inl ⟨"12".data, "5".data, by decide, by decide, by decide, by decide⟩)
    have heq : svlChars ++ ' ' :: "12.5".data =
        "SOURCE:VOLTAGE:LEVEL 12.5".data := by decide
    rw [heq] at h
    exact h
  · exact voltPattern_val_spec.2 ("SOURCE:VOLTAGE:LEVEL 7".data) ("7".data)
      (by decide)

end Bapsflib
